import Mathlib

/-!
Verification of the amqp-proton-demo example programs.

Each namespace below is a shallow embedding of one example program's
messaging handler: the handler's mutable fields become a state structure and
each callback or public method becomes a function on that state, translated
directly from the C++ source.  Library-side behaviour that is not part of
this repository (Proton's credit mechanics, failover endpoint selection) is
modelled from the specification and marked as such in doc comments.
-/

namespace SendAcrossThreads

/-- State of `MyHandler` in send_across_threads.cpp.  `work_queue` records
whether the work-queue pointer is non-null (it is set in `on_sender_open`);
`queue` holds the closures enqueued by `send`, each represented by the
message string it captures; `transfers` holds the messages actually emitted
by the worker draining the queue. -/
structure HandlerState where
  work_queue : Bool
  current_sender_credit : Nat
  error_raised : Bool
  queue : List String
  transfers : List String
  deriving Repr, DecidableEq

/-- Constructor of `MyHandler`: null work queue, zero credit, no error. -/
def initState : HandlerState :=
  { work_queue := false, current_sender_credit := 0, error_raised := false,
    queue := [], transfers := [] }

/-- The condition of the wait loop in `MyHandler::send` (line 202):
`while (!work_queue && (current_sender_credit == 0 && !error_raised))`.
The loop keeps waiting while this is `true` and the call proceeds as soon
as it is `false`. -/
def sendWaitLoopCond (st : HandlerState) : Bool :=
  !st.work_queue && (st.current_sender_credit == 0 && !st.error_raised)

/-- The proceed condition stated by the spec (§5): the caller may proceed
past the wait only once a work-queue handle exists AND (credit > 0 OR an
error has been raised).  Written from the spec's words, to be compared with
the loop condition embedded from the source. -/
def specProceedCond (st : HandlerState) : Bool :=
  st.work_queue && (decide (0 < st.current_sender_credit) || st.error_raised)

/-- `MyHandler::on_sender_open`: store the sender and its work queue. -/
def on_sender_open (st : HandlerState) : HandlerState :=
  { st with work_queue := true }

/-- `MyHandler::on_sendable`: record the link credit reported by the
sender (and notify waiting threads; the notification has no state effect
in this sequential model). -/
def on_sendable (credit : Nat) (st : HandlerState) : HandlerState :=
  { st with current_sender_credit := credit }

/-- `MyHandler::on_error`: set the error flag (and notify waiters). -/
def on_error (st : HandlerState) : HandlerState :=
  { st with error_raised := true }

/-- Result of a call to `MyHandler::send`: normal return, or the
`std::runtime_error` thrown when the error flag is set. -/
inductive SendResult where
  | ok : SendResult
  | raised (msg : String) : SendResult
  deriving Repr, DecidableEq

/-- `MyHandler::send`, modelled at the point where the wait loop has
completed: if `error_raised` is set, throw and leave the state unchanged;
otherwise append one closure (capturing the message) to the work queue.
`send` itself never emits a transfer and never changes the recorded
credit. -/
def send (msg : String) (st : HandlerState) : SendResult × HandlerState :=
  if st.error_raised then
    (.raised "Tried to send in a error condition", st)
  else
    (.ok, { st with queue := st.queue ++ [msg] })

/-- One step of the container worker draining the work queue: pop the
oldest closure and run it, i.e. perform the actual `sender.send`. -/
def workerStep (st : HandlerState) : HandlerState :=
  match st.queue with
  | [] => st
  | m :: rest => { st with queue := rest, transfers := st.transfers ++ [m] }

/-- The state right after the link opens, before any credit is reported:
work queue present, recorded credit 0, no error. -/
def afterSenderOpen : HandlerState := on_sender_open initState

/-- The state after the link opens and a replenishment records credit 1. -/
def oneCreditState : HandlerState := on_sendable 1 afterSenderOpen

/-- `oneCreditState` after one successful send: one closure enqueued, the
recorded credit untouched. -/
def oneCreditStateA : HandlerState :=
  { work_queue := true, current_sender_credit := 1, error_raised := false,
    queue := ["m1"], transfers := [] }

/-- `oneCreditStateA` after a second successful send. -/
def oneCreditStateB : HandlerState :=
  { work_queue := true, current_sender_credit := 1, error_raised := false,
    queue := ["m1", "m2"], transfers := [] }

/-- Kinds of access to a handler field, for the lock-discipline audit. -/
inductive AccessKind where
  | read
  | write
  deriving Repr, DecidableEq

/-- The two pieces of cross-thread shared state named by the spec's shared
resource policy: the recorded credit counter and the error flag. -/
inductive SharedField where
  | credit
  | errorFlag
  deriving Repr, DecidableEq

/-- One access to a shared field in send_across_threads.cpp: the member
function it occurs in, the source line, the field, the kind of access, and
whether a `std::lock_guard` or `std::unique_lock` on `lock` is held at that
point. -/
structure FieldAccess where
  inFunction : String
  line : Nat
  field : SharedField
  kind : AccessKind
  underLock : Bool
  deriving Repr, DecidableEq

/-- Every access to `current_sender_credit` and `error_raised` in the three
cross-thread functions of send_across_threads.cpp (`on_sendable`,
`on_error`, `send`), transcribed from the source.  `on_sendable` writes the
credit at line 167 under the `lock_guard` taken at line 162; `on_error`
writes the error flag at line 180 with no lock taken anywhere in that
function; `send` reads all three wait-condition fields at line 202 under
the `unique_lock` taken at line 196, whose scope ends at line 209, and then
re-reads the error flag at line 214 outside that scope.  (The constructor
also initialises both fields, before the container thread exists.) -/
def sharedFieldAccesses : List FieldAccess :=
  [ ⟨"MyHandler::on_sendable", 167, .credit, .write, true⟩,
    ⟨"MyHandler::on_error", 180, .errorFlag, .write, false⟩,
    ⟨"MyHandler::send", 202, .credit, .read, true⟩,
    ⟨"MyHandler::send", 202, .errorFlag, .read, true⟩,
    ⟨"MyHandler::send", 214, .errorFlag, .read, false⟩ ]

/-- The unlocked write of the error flag in `MyHandler::on_error`. -/
def onErrorUnlockedWrite : FieldAccess :=
  ⟨"MyHandler::on_error", 180, .errorFlag, .write, false⟩

/-- The two sides of the threading contract in send_across_threads.cpp:
the application side (`main` and the public `MyHandler::send`) and the
container side (the Proton thread running the callbacks and draining the
work queue). -/
inductive ThreadSide where
  | application
  | container
  deriving Repr, DecidableEq

/-- The pieces of state of `MyHandler`, plus the message captured into the
work-queue closure, that are touched after the container thread has been
started.  The mutex and the condition variable are omitted: they are the
guarding lock/condition-variable pair itself. -/
inductive StateItem where
  | address
  | user
  | password
  | senderHandle
  | workQueue
  | credit
  | errorFlag
  | payload
  deriving Repr, DecidableEq, Fintype

/-- One access to a piece of handler state: the item, the thread side the
access runs on, the kind, the function (or closure) it occurs in, and for
the payload whether the access happens after the closure has been handed
off to the work queue. -/
structure StateAccess where
  item : StateItem
  side : ThreadSide
  kind : AccessKind
  inFunction : String
  afterHandoff : Bool
  deriving Repr, DecidableEq

/-- Every access to `MyHandler` state after the container thread starts,
transcribed from send_across_threads.cpp (constructor initialisation at
lines 92-97 precedes the creation of the container thread and is
excluded).  `on_container_start` reads the connection parameters (lines
138-148); `on_sender_open` stores the sender and the work-queue pointer
(lines 129-130); `on_sendable` writes the recorded credit (line 167);
`on_error` writes the error flag (line 180); `send` reads the work-queue
pointer, the credit and the error flag in the wait loop (line 202),
re-reads the error flag (line 214), constructs the message payload and
captures it by value (lines 221-222), and enqueues the closure on the work
queue (line 222); the enqueued closure, run later on the container thread,
reads the sender handle and the captured payload (line 222). -/
def crossThreadAccesses : List StateAccess :=
  [ ⟨.address, .container, .read, "MyHandler::on_container_start", false⟩,
    ⟨.user, .container, .read, "MyHandler::on_container_start", false⟩,
    ⟨.password, .container, .read, "MyHandler::on_container_start", false⟩,
    ⟨.senderHandle, .container, .write, "MyHandler::on_sender_open", false⟩,
    ⟨.workQueue, .container, .write, "MyHandler::on_sender_open", false⟩,
    ⟨.credit, .container, .write, "MyHandler::on_sendable", false⟩,
    ⟨.errorFlag, .container, .write, "MyHandler::on_error", false⟩,
    ⟨.workQueue, .application, .read, "MyHandler::send", false⟩,
    ⟨.credit, .application, .read, "MyHandler::send", false⟩,
    ⟨.errorFlag, .application, .read, "MyHandler::send", false⟩,
    ⟨.payload, .application, .write, "MyHandler::send", false⟩,
    ⟨.workQueue, .application, .write, "MyHandler::send", false⟩,
    ⟨.senderHandle, .container, .read, "work-queue closure, line 222", false⟩,
    ⟨.payload, .container, .read, "work-queue closure, line 222", true⟩ ]

/-- Whether a state item is accessed from the given thread side. -/
def accessedBy (it : StateItem) (s : ThreadSide) : Bool :=
  crossThreadAccesses.any (fun a => a.item == it && a.side == s)

/-- Whether a state item is shared across threads: accessed from both the
application side and the container side. -/
def sharedAcrossThreads (it : StateItem) : Bool :=
  accessedBy it .application && accessedBy it .container

end SendAcrossThreads

/-- C1: the claim says `send` blocks until a work-queue handle exists AND
(credit > 0 OR an error has been raised).  In the state reached right after
`on_sender_open` (work queue present, recorded credit 0, no error) the
code's wait-loop condition is already `false`, so `send` proceeds past the
wait, although the spec's proceed condition is still `false` there: the
loop at line 202 uses `&&` between `!work_queue` and the credit/error test
where the comment above it (and the spec) demand waiting for both. -/
theorem C1_wait_condition_mismatch :
    SendAcrossThreads.sendWaitLoopCond SendAcrossThreads.afterSenderOpen = false ∧
    SendAcrossThreads.specProceedCond SendAcrossThreads.afterSenderOpen = false ∧
    SendAcrossThreads.afterSenderOpen.current_sender_credit = 0 ∧
    SendAcrossThreads.afterSenderOpen.error_raised = false := by
  decide

/-- C2 counterexample: after a replenishment records credit 1, two
consecutive `send` calls both find the wait condition already `false`, both
enqueue a closure, and the recorded credit is still 1 afterwards — more
than C = 1 sends pass the wait between replenishments, so a credit unit is
double-spent. -/
theorem C2_two_sends_pass_with_one_credit :
    SendAcrossThreads.sendWaitLoopCond SendAcrossThreads.oneCreditState = false ∧
    SendAcrossThreads.send "m1" SendAcrossThreads.oneCreditState =
      (.ok, SendAcrossThreads.oneCreditStateA) ∧
    SendAcrossThreads.sendWaitLoopCond SendAcrossThreads.oneCreditStateA = false ∧
    SendAcrossThreads.send "m2" SendAcrossThreads.oneCreditStateA =
      (.ok, SendAcrossThreads.oneCreditStateB) ∧
    1 < SendAcrossThreads.oneCreditStateB.queue.length ∧
    SendAcrossThreads.oneCreditStateB.current_sender_credit = 1 := by
  refine ⟨rfl, ?_, rfl, ?_, by decide, rfl⟩ <;> rfl

/-- C2 amended: `send` never spends credit — the recorded credit is only
ever written by `on_sendable` — and once the work-queue handle exists every
error-free `send` call passes the wait and enqueues one closure regardless
of the recorded credit, so the number of sends that pass between two
replenishments is unbounded rather than bounded by the recorded credit
(and `on_error`/`on_sendable` use `notify_all`, waking every waiter, not
just those that could proceed). -/
theorem C2_send_never_spends_credit (st : SendAcrossThreads.HandlerState)
    (msg : String) (hwq : st.work_queue = true) :
    SendAcrossThreads.sendWaitLoopCond st = false ∧
    (st.error_raised = false →
      SendAcrossThreads.send msg st =
        (.ok, { st with queue := st.queue ++ [msg] }) ∧
      (SendAcrossThreads.send msg st).2.current_sender_credit =
        st.current_sender_credit ∧
      (SendAcrossThreads.send msg st).2.queue.length = st.queue.length + 1) := by
  constructor
  · simp [SendAcrossThreads.sendWaitLoopCond, hwq]
  · intro herr
    refine ⟨by simp [SendAcrossThreads.send, herr], ?_, ?_⟩ <;>
      simp [SendAcrossThreads.send, herr]

/-- Witness for C2's amended theorem at the concrete one-credit state. -/
theorem C2_send_never_spends_credit_witness :
    SendAcrossThreads.sendWaitLoopCond SendAcrossThreads.oneCreditState = false ∧
    (SendAcrossThreads.oneCreditState.error_raised = false →
      SendAcrossThreads.send "m1" SendAcrossThreads.oneCreditState =
        (.ok, { SendAcrossThreads.oneCreditState with
                  queue := SendAcrossThreads.oneCreditState.queue ++ ["m1"] }) ∧
      (SendAcrossThreads.send "m1" SendAcrossThreads.oneCreditState).2.current_sender_credit =
        SendAcrossThreads.oneCreditState.current_sender_credit ∧
      (SendAcrossThreads.send "m1" SendAcrossThreads.oneCreditState).2.queue.length =
        SendAcrossThreads.oneCreditState.queue.length + 1) :=
  C2_send_never_spends_credit SendAcrossThreads.oneCreditState "m1" rfl

/-- C3: when the error flag is set at the end of the wait, `send` throws
and leaves the work queue (and everything else) unchanged; when it is not
set, `send` enqueues exactly one closure and emits no transfer itself —
the `transfers` list is untouched, emission happening only in a later
`workerStep` on the owning worker. -/
theorem C3_send_error_or_enqueue (st : SendAcrossThreads.HandlerState)
    (msg : String) :
    (st.error_raised = true →
      SendAcrossThreads.send msg st =
        (.raised "Tried to send in a error condition", st)) ∧
    (st.error_raised = false →
      SendAcrossThreads.send msg st =
        (.ok, { st with queue := st.queue ++ [msg] }) ∧
      (SendAcrossThreads.send msg st).2.queue.length = st.queue.length + 1 ∧
      (SendAcrossThreads.send msg st).2.transfers = st.transfers) := by
  constructor
  · intro herr
    simp [SendAcrossThreads.send, herr]
  · intro herr
    refine ⟨?_, ?_, ?_⟩ <;> simp [SendAcrossThreads.send, herr]

/-- Witness for C3 at the concrete one-credit state (no error raised). -/
theorem C3_send_error_or_enqueue_witness :
    (SendAcrossThreads.oneCreditState.error_raised = true →
      SendAcrossThreads.send "m" SendAcrossThreads.oneCreditState =
        (.raised "Tried to send in a error condition",
          SendAcrossThreads.oneCreditState)) ∧
    (SendAcrossThreads.oneCreditState.error_raised = false →
      SendAcrossThreads.send "m" SendAcrossThreads.oneCreditState =
        (.ok, { SendAcrossThreads.oneCreditState with
                  queue := SendAcrossThreads.oneCreditState.queue ++ ["m"] }) ∧
      (SendAcrossThreads.send "m" SendAcrossThreads.oneCreditState).2.queue.length =
        SendAcrossThreads.oneCreditState.queue.length + 1 ∧
      (SendAcrossThreads.send "m" SendAcrossThreads.oneCreditState).2.transfers =
        SendAcrossThreads.oneCreditState.transfers) :=
  C3_send_error_or_enqueue SendAcrossThreads.oneCreditState "m"

/-- C4 counterexample: the write of the error flag in `MyHandler::on_error`
(line 180) is performed with no lock held — `on_error` takes no
`lock_guard` at all — and `send` re-reads the error flag at line 214 after
the `unique_lock` scope has ended, so not every access to the
credit/error-flag shared state holds the mutex. -/
theorem C4_unlocked_accesses_exist :
    SendAcrossThreads.onErrorUnlockedWrite ∈ SendAcrossThreads.sharedFieldAccesses ∧
    SendAcrossThreads.onErrorUnlockedWrite.underLock = false ∧
    (SendAcrossThreads.sharedFieldAccesses.filter
      (fun a => !a.underLock)).length = 2 := by
  decide

/-- C4 amended: every access to `current_sender_credit` and `error_raised`
in the cross-thread functions of send_across_threads.cpp holds the mutex,
except the write of the error flag in `on_error` (line 180) and the
post-wait re-read of the error flag in `send` (line 214), which occur with
no lock held; and, as the claim states, besides the credit counter and the
error flag the only state shared across threads is the work queue itself
and the message payload captured by value into the enqueued closure, which
is only read — never mutated — after the handoff. -/
theorem C4_lock_discipline (a : SendAcrossThreads.FieldAccess)
    (h : a ∈ SendAcrossThreads.sharedFieldAccesses) :
    (a.underLock = true ∨ a.line = 180 ∨ a.line = 214) ∧
    (∀ it : SendAcrossThreads.StateItem,
      SendAcrossThreads.sharedAcrossThreads it = true →
      it = .workQueue ∨ it = .credit ∨ it = .errorFlag ∨ it = .payload) ∧
    (∀ acc ∈ SendAcrossThreads.crossThreadAccesses,
      acc.item = .payload → acc.afterHandoff = true → acc.kind = .read) := by
  refine ⟨?_, ?_, ?_⟩
  · fin_cases h <;> simp
  · decide
  · decide

/-- Witness for C4's amended theorem at the locked credit write, the
shared credit item, and the post-handoff payload read. -/
theorem C4_lock_discipline_witness :
    ((⟨"MyHandler::on_sendable", 167, .credit, .write, true⟩ :
        SendAcrossThreads.FieldAccess).underLock = true ∨
      (⟨"MyHandler::on_sendable", 167, .credit, .write, true⟩ :
        SendAcrossThreads.FieldAccess).line = 180 ∨
      (⟨"MyHandler::on_sendable", 167, .credit, .write, true⟩ :
        SendAcrossThreads.FieldAccess).line = 214) ∧
    (SendAcrossThreads.StateItem.credit = .workQueue ∨
      SendAcrossThreads.StateItem.credit = .credit ∨
      SendAcrossThreads.StateItem.credit = .errorFlag ∨
      SendAcrossThreads.StateItem.credit = .payload) ∧
    (⟨.payload, .container, .read, "work-queue closure, line 222", true⟩ :
      SendAcrossThreads.StateAccess).kind = .read :=
  ⟨(C4_lock_discipline _ (by decide)).1,
   (C4_lock_discipline ⟨"MyHandler::on_sendable", 167, .credit, .write, true⟩
     (by decide)).2.1 .credit (by decide),
   (C4_lock_discipline ⟨"MyHandler::on_sendable", 167, .credit, .write, true⟩
     (by decide)).2.2 _ (by decide) rfl rfl⟩

namespace SendLots

/-- State of `LoggingHandler` in send_lots.cpp (and, identically, in
send_lots_tls.cpp and send_lots_leaky.cpp): the broker-granted link credit
reported by `s.credit()`, the `sent` counter, the `closed` flag, and a
count of `connection().close()` invocations (for stating that close happens
at most once; it is not a field of the C++ class). -/
structure LinkState where
  credit : Int
  sent : Nat
  closed : Bool
  closeCalls : Nat
  deriving Repr, DecidableEq

/-- Constructor of `LoggingHandler`: nothing sent, not closed; credit is 0
until the peer grants some. -/
def init : LinkState := { credit := 0, sent := 0, closed := false, closeCalls := 0 }

/-- The while loop of `LoggingHandler::on_sendable` in send_lots.cpp
(lines 149-161): `while (s.credit() > 0 && (sent < number_to_send))` send
one message, which consumes one credit unit, and increment `sent`.  The
loop is expressed with a fuel argument; run with fuel `credit.toNat` it
performs exactly the iterations of the C++ loop, since each iteration
decrements the credit by one and the loop stops at credit 0. -/
def sendLoopAux (N : Nat) : Nat → LinkState → LinkState
  | 0, st => st
  | fuel + 1, st =>
    if 0 < st.credit ∧ st.sent < N then
      sendLoopAux N fuel { st with credit := st.credit - 1, sent := st.sent + 1 }
    else st

/-- `LoggingHandler::on_sendable` from send_lots.cpp. -/
def on_sendable (N : Nat) (st : LinkState) : LinkState :=
  sendLoopAux N st.credit.toNat st

/-- The while loop of `on_sendable` in send_lots_tls.cpp (line 182) and
send_lots_leaky.cpp (line 143), whose guard is the integer truthiness test
`while (s.credit() && (sent < number_to_send))`, i.e. credit nonzero
rather than strictly positive. -/
def sendLoopTlsAux (N : Nat) : Nat → LinkState → LinkState
  | 0, st => st
  | fuel + 1, st =>
    if st.credit ≠ 0 ∧ st.sent < N then
      sendLoopTlsAux N fuel { st with credit := st.credit - 1, sent := st.sent + 1 }
    else st

/-- `on_sendable` from send_lots_tls.cpp / send_lots_leaky.cpp. -/
def on_sendable_tls (N : Nat) (st : LinkState) : LinkState :=
  sendLoopTlsAux N st.credit.toNat st

/-- `LoggingHandler::on_tracker_accept`, identical in send_lots.cpp
(lines 75-97), send_lots_tls.cpp (lines 108-122) and send_lots_leaky.cpp
(lines 80-94): if the selected number of messages has been sent and the
connection has not been closed yet, call `connection().close()` and set
`closed`. -/
def on_tracker_accept (N : Nat) (st : LinkState) : LinkState :=
  if st.sent = N ∧ st.closed = false then
    { st with closeCalls := st.closeCalls + 1, closed := true }
  else st

/-- `MyHandler::on_sendable` in send_receive_failover.cpp (lines 129-139):
send exactly one message per invocation, with no credit or count guard in
the handler itself. -/
def on_sendable_failover (st : LinkState) : LinkState :=
  { st with credit := st.credit - 1, sent := st.sent + 1 }

/-- Events on one sender link: a `flow` performative granting credit, a
container invocation of `on_sendable`, and an accepted disposition
(`on_tracker_accept`). -/
inductive Event where
  | flow (grant : Nat)
  | sendable
  | accept
  deriving Repr, DecidableEq

/-- Modelled from the spec: credit is a flow-control allowance granted by
the receiver, denominated in permitted transfers; a `flow` performative
from the peer adds its grant to the link's credit counter, and each
transfer sent consumes one unit (the counter itself lives in the Proton
library, not in this repository's sources). -/
def applyFlow (g : Nat) (st : LinkState) : LinkState :=
  { st with credit := st.credit + g }

/-- One event step of the send_lots.cpp handler. -/
def step (N : Nat) (st : LinkState) : Event → LinkState
  | .flow g => applyFlow g st
  | .sendable => on_sendable N st
  | .accept => on_tracker_accept N st

/-- One event step of the send_lots_tls.cpp / send_lots_leaky.cpp handler. -/
def stepTls (N : Nat) (st : LinkState) : Event → LinkState
  | .flow g => applyFlow g st
  | .sendable => on_sendable_tls N st
  | .accept => on_tracker_accept N st

/-- One event step of the send_receive_failover.cpp handler (whose
`on_tracker_accept` is not overridden and does nothing). -/
def stepFailover (st : LinkState) : Event → LinkState
  | .flow g => applyFlow g st
  | .sendable => on_sendable_failover st
  | .accept => st

def runFrom (N : Nat) (st : LinkState) (es : List Event) : LinkState :=
  es.foldl (step N) st

/-- The send_lots.cpp handler run on an event trace from the initial state. -/
def run (N : Nat) (es : List Event) : LinkState := runFrom N init es

def runTlsFrom (N : Nat) (st : LinkState) (es : List Event) : LinkState :=
  es.foldl (stepTls N) st

/-- The send_lots_tls.cpp handler run on an event trace. -/
def runTls (N : Nat) (es : List Event) : LinkState := runTlsFrom N init es

def runFailoverFrom (st : LinkState) (es : List Event) : LinkState :=
  es.foldl stepFailover st

/-- The send_receive_failover.cpp handler run on an event trace. -/
def runFailover (es : List Event) : LinkState := runFailoverFrom init es

/-- Total credit granted by the flow performatives of a trace. -/
def grants : List Event → Nat
  | [] => 0
  | .flow g :: es => g + grants es
  | _ :: es => grants es

/-- Modelled from the spec: the container invokes `on_sendable` only when
the link is ready for a send operation, i.e. when the link has credit;
this predicate holds of a trace whose every `sendable` event occurs at a
state with strictly positive credit. -/
def wfFailover : LinkState → List Event → Bool
  | _, [] => true
  | st, e :: es =>
    decide (e = Event.sendable → 0 < st.credit) && wfFailover (stepFailover st e) es

lemma sendLoopAux_credit_add_sent (N : Nat) (fuel : Nat) :
    ∀ st : LinkState,
      (sendLoopAux N fuel st).credit + ((sendLoopAux N fuel st).sent : Int) =
        st.credit + (st.sent : Int) := by
  induction fuel with
  | zero => intro st; simp [sendLoopAux]
  | succ fuel ih =>
    intro st
    rw [sendLoopAux]
    split
    · rw [ih]; push_cast; ring
    · rfl

lemma sendLoopAux_credit_nonneg (N : Nat) (fuel : Nat) :
    ∀ st : LinkState, 0 ≤ st.credit → 0 ≤ (sendLoopAux N fuel st).credit := by
  induction fuel with
  | zero => intro st h; simpa [sendLoopAux] using h
  | succ fuel ih =>
    intro st h
    rw [sendLoopAux]
    split
    · rename_i hguard
      exact ih _ (show (0 : Int) ≤ st.credit - 1 by omega)
    · exact h

lemma sendLoopAux_sent_le (N : Nat) (fuel : Nat) :
    ∀ st : LinkState, st.sent ≤ N → (sendLoopAux N fuel st).sent ≤ N := by
  induction fuel with
  | zero => intro st h; simpa [sendLoopAux] using h
  | succ fuel ih =>
    intro st h
    rw [sendLoopAux]
    split
    · rename_i hguard
      exact ih _ (show st.sent + 1 ≤ N by omega)
    · exact h

lemma sendLoopAux_closed_closeCalls (N : Nat) (fuel : Nat) :
    ∀ st : LinkState,
      (sendLoopAux N fuel st).closed = st.closed ∧
      (sendLoopAux N fuel st).closeCalls = st.closeCalls := by
  induction fuel with
  | zero => intro st; simp [sendLoopAux]
  | succ fuel ih =>
    intro st
    rw [sendLoopAux]
    split
    · exact ih _
    · exact ⟨rfl, rfl⟩

lemma sendLoopAux_of_guard_false (N : Nat) (fuel : Nat) (st : LinkState)
    (h : ¬(0 < st.credit ∧ st.sent < N)) : sendLoopAux N fuel st = st := by
  cases fuel with
  | zero => rfl
  | succ fuel => rw [sendLoopAux, if_neg h]

lemma sendLoopAux_complete (N : Nat) (fuel : Nat) :
    ∀ st : LinkState, st.sent ≤ N → (N : Int) - st.sent ≤ st.credit →
      N - st.sent ≤ fuel → (sendLoopAux N fuel st).sent = N := by
  induction fuel with
  | zero =>
    intro st h1 _ h3
    simp only [sendLoopAux]
    omega
  | succ fuel ih =>
    intro st h1 h2 h3
    rw [sendLoopAux]
    split
    · rename_i hguard
      refine ih _ (show st.sent + 1 ≤ N by omega)
        (show (N : Int) - ((st.sent + 1 : Nat) : Int) ≤ st.credit - 1 by
          push_cast; omega)
        (show N - (st.sent + 1) ≤ fuel by omega)
    · rename_i hguard
      omega

lemma sendLoopTlsAux_eq (N : Nat) (fuel : Nat) :
    ∀ st : LinkState, 0 ≤ st.credit →
      sendLoopTlsAux N fuel st = sendLoopAux N fuel st := by
  induction fuel with
  | zero => intro st _; rfl
  | succ fuel ih =>
    intro st h
    rw [sendLoopTlsAux, sendLoopAux]
    by_cases hg : 0 < st.credit ∧ st.sent < N
    · rw [if_pos hg, if_pos (by omega : st.credit ≠ 0 ∧ st.sent < N)]
      exact ih _ (show (0 : Int) ≤ st.credit - 1 by omega)
    · rw [if_neg hg, if_neg (by omega : ¬(st.credit ≠ 0 ∧ st.sent < N))]

lemma on_sendable_credit_add_sent (N : Nat) (st : LinkState) :
    (on_sendable N st).credit + ((on_sendable N st).sent : Int) =
      st.credit + (st.sent : Int) :=
  sendLoopAux_credit_add_sent N st.credit.toNat st

lemma on_tracker_accept_credit_sent (N : Nat) (st : LinkState) :
    (on_tracker_accept N st).credit = st.credit ∧
    (on_tracker_accept N st).sent = st.sent := by
  rw [on_tracker_accept]
  split <;> exact ⟨rfl, rfl⟩

lemma runFrom_inv (N : Nat) (es : List Event) :
    ∀ st : LinkState, 0 ≤ st.credit → st.sent ≤ N →
      (runFrom N st es).credit + ((runFrom N st es).sent : Int) =
        st.credit + (st.sent : Int) + (grants es : Int) ∧
      0 ≤ (runFrom N st es).credit ∧ (runFrom N st es).sent ≤ N := by
  induction es with
  | nil => intro st h1 h2; simp [runFrom, grants]; omega
  | cons e es ih =>
    intro st h1 h2
    cases e with
    | flow g =>
      have h := ih (applyFlow g st) (by simp [applyFlow]; omega) (by simp [applyFlow, h2])
      simpa [runFrom, step, grants, applyFlow, add_assoc, add_comm, add_left_comm]
        using h
    | sendable =>
      have hc := sendLoopAux_credit_add_sent N st.credit.toNat st
      have hn := sendLoopAux_credit_nonneg N st.credit.toNat st h1
      have hs := sendLoopAux_sent_le N st.credit.toNat st h2
      have h := ih (on_sendable N st) hn hs
      rw [show runFrom N st (Event.sendable :: es) = runFrom N (on_sendable N st) es
        from rfl]
      refine ⟨?_, h.2.1, h.2.2⟩
      rw [h.1, show grants (Event.sendable :: es) = grants es from rfl]
      have := on_sendable_credit_add_sent N st
      omega
    | accept =>
      have hca := on_tracker_accept_credit_sent N st
      have h := ih (on_tracker_accept N st) (by omega) (by omega)
      rw [show runFrom N st (Event.accept :: es) = runFrom N (on_tracker_accept N st) es
        from rfl]
      refine ⟨?_, h.2.1, h.2.2⟩
      rw [h.1, show grants (Event.accept :: es) = grants es from rfl]
      omega

lemma runTlsFrom_eq (N : Nat) (es : List Event) :
    ∀ st : LinkState, 0 ≤ st.credit →
      runTlsFrom N st es = runFrom N st es := by
  induction es with
  | nil => intro st _; rfl
  | cons e es ih =>
    intro st h1
    cases e with
    | flow g =>
      have : 0 ≤ (applyFlow g st).credit := by simp [applyFlow]; omega
      simpa [runTlsFrom, runFrom, stepTls, step] using ih (applyFlow g st) this
    | sendable =>
      have heq : on_sendable_tls N st = on_sendable N st :=
        sendLoopTlsAux_eq N st.credit.toNat st h1
      have hn := sendLoopAux_credit_nonneg N st.credit.toNat st h1
      have h := ih (on_sendable N st) hn
      calc runTlsFrom N st (Event.sendable :: es)
          = runTlsFrom N (on_sendable_tls N st) es := rfl
        _ = runTlsFrom N (on_sendable N st) es := by rw [heq]
        _ = runFrom N (on_sendable N st) es := h
        _ = runFrom N st (Event.sendable :: es) := rfl
    | accept =>
      have hca := on_tracker_accept_credit_sent N st
      exact ih (on_tracker_accept N st) (by omega)

lemma runFailoverFrom_inv (es : List Event) :
    ∀ st : LinkState, 0 ≤ st.credit → wfFailover st es = true →
      (runFailoverFrom st es).credit + ((runFailoverFrom st es).sent : Int) =
        st.credit + (st.sent : Int) + (grants es : Int) ∧
      0 ≤ (runFailoverFrom st es).credit := by
  induction es with
  | nil => intro st h1 _; simp [runFailoverFrom, grants]; omega
  | cons e es ih =>
    intro st h1 hwf
    rw [wfFailover, Bool.and_eq_true, decide_eq_true_eq] at hwf
    cases e with
    | flow g =>
      have := ih (applyFlow g st) (by simp [applyFlow]; omega) hwf.2
      simpa [runFailoverFrom, stepFailover, grants, applyFlow,
        add_assoc, add_comm, add_left_comm] using this
    | sendable =>
      have hpos : 0 < st.credit := hwf.1 rfl
      have h := ih (on_sendable_failover st) (by simp [on_sendable_failover]; omega)
        hwf.2
      rw [show runFailoverFrom st (Event.sendable :: es) =
        runFailoverFrom (on_sendable_failover st) es from rfl]
      refine ⟨?_, h.2⟩
      rw [h.1, show grants (Event.sendable :: es) = grants es from rfl]
      simp only [on_sendable_failover]
      push_cast
      ring
    | accept =>
      have := ih st h1 hwf.2
      simpa [runFailoverFrom, stepFailover, grants] using this

end SendLots

namespace SendLots

lemma run_inv (N : Nat) (es : List Event) :
    (run N es).credit + ((run N es).sent : Int) = (grants es : Int) ∧
    0 ≤ (run N es).credit ∧ (run N es).sent ≤ N := by
  have h := runFrom_inv N es init (le_refl 0) (Nat.zero_le N)
  refine ⟨?_, h.2.1, h.2.2⟩
  simpa [run, init] using h.1

lemma runFailover_inv (es : List Event) (hwf : wfFailover init es = true) :
    (runFailover es).credit + ((runFailover es).sent : Int) = (grants es : Int) ∧
    0 ≤ (runFailover es).credit := by
  have h := runFailoverFrom_inv es init (le_refl 0) hwf
  refine ⟨?_, h.2⟩
  simpa [runFailover, init] using h.1

lemma runFrom_sent_stable (N : Nat) (es : List Event) :
    ∀ st : LinkState, st.sent = N → (runFrom N st es).sent = N := by
  induction es with
  | nil => intro st h; exact h
  | cons e es ih =>
    intro st h
    cases e with
    | flow g => exact ih (applyFlow g st) h
    | sendable =>
      have hid : on_sendable N st = st :=
        sendLoopAux_of_guard_false N st.credit.toNat st (by omega)
      have : runFrom N st (Event.sendable :: es) = runFrom N (on_sendable N st) es :=
        rfl
      rw [this, hid]
      exact ih st h
    | accept =>
      exact ih (on_tracker_accept N st)
        (by rw [(on_tracker_accept_credit_sent N st).2]; exact h)

lemma step_close_change (N : Nat) (st : LinkState) (e : Event)
    (h : (step N st e).closeCalls ≠ st.closeCalls) :
    e = Event.accept ∧ st.sent = N ∧ st.closed = false ∧
    (step N st e).closed = true ∧ (step N st e).closeCalls = st.closeCalls + 1 := by
  cases e with
  | flow g => exact absurd rfl h
  | sendable =>
    exact absurd (sendLoopAux_closed_closeCalls N st.credit.toNat st).2 h
  | accept =>
    have hstep : step N st Event.accept = on_tracker_accept N st := rfl
    rw [hstep] at h ⊢
    rw [on_tracker_accept] at h ⊢
    split at h
    · rename_i hguard
      rw [if_pos hguard]
      exact ⟨rfl, hguard.1, hguard.2, rfl, rfl⟩
    · exact absurd rfl h

lemma step_closed_stable (N : Nat) (st : LinkState) (e : Event)
    (h : st.closed = true) :
    (step N st e).closed = true ∧ (step N st e).closeCalls = st.closeCalls := by
  cases e with
  | flow g => exact ⟨h, rfl⟩
  | sendable =>
    have hcc := sendLoopAux_closed_closeCalls N st.credit.toNat st
    exact ⟨hcc.1.trans h, hcc.2⟩
  | accept =>
    have hstep : step N st Event.accept = on_tracker_accept N st := rfl
    rw [hstep, on_tracker_accept, if_neg (by simp [h])]
    exact ⟨h, rfl⟩

lemma runFrom_close_inv (N : Nat) (es : List Event) :
    ∀ st : LinkState, (st.closed = true ↔ st.closeCalls = 1) → st.closeCalls ≤ 1 →
      ((runFrom N st es).closed = true ↔ (runFrom N st es).closeCalls = 1) ∧
      (runFrom N st es).closeCalls ≤ 1 := by
  induction es with
  | nil => intro st h1 h2; exact ⟨h1, h2⟩
  | cons e es ih =>
    intro st h1 h2
    have hstep : runFrom N st (e :: es) = runFrom N (step N st e) es := rfl
    rw [hstep]
    by_cases hch : (step N st e).closeCalls = st.closeCalls
    · have hcl : (step N st e).closed = st.closed := by
        cases e with
        | flow g => rfl
        | sendable => exact (sendLoopAux_closed_closeCalls N st.credit.toNat st).1
        | accept =>
          have h : step N st Event.accept = on_tracker_accept N st := rfl
          rw [h] at hch ⊢
          rw [on_tracker_accept] at hch ⊢
          split at hch
          · simp at hch
          · rename_i hguard
            rw [if_neg hguard]
      exact ih (step N st e) (by rw [hcl, hch]; exact h1) (by omega)
    · have hc := step_close_change N st e hch
      have hfalse : st.closeCalls ≠ 1 := by
        intro hone
        exact absurd (h1.mpr hone) (by simp [hc.2.2.1])
      have hcc := hc.2.2.2.2
      refine ih (step N st e) ?_ (by omega)
      rw [hc.2.2.2.1, hc.2.2.2.2]
      constructor
      · intro _; omega
      · intro _; rfl

/-- Events on the send_lots.cpp link with tracker identity: an accepted
disposition names the 1-based tag of the transfer it settles, so that a
statement can distinguish which transfer's disposition triggered a close.
The handler itself uses the tracker argument only for `t.connection()`. -/
inductive TaggedEvent where
  | flow (grant : Nat)
  | sendable
  | accept (tag : Nat)
  deriving Repr, DecidableEq

/-- State of the send_lots.cpp handler together with disposition
bookkeeping: the tags of the transfers whose dispositions have been
accepted so far, and, once `connection().close()` has been invoked, the
list of accepted tags at that moment. -/
structure TaggedState where
  credit : Int
  sent : Nat
  closed : Bool
  closeCalls : Nat
  accepted : List Nat
  closedAfter : Option (List Nat)
  deriving Repr, DecidableEq

def tagInit : TaggedState :=
  { credit := 0, sent := 0, closed := false, closeCalls := 0,
    accepted := [], closedAfter := none }

/-- The `on_sendable` while loop of send_lots.cpp (lines 149-161), as in
`sendLoopAux`, on the tagged state. -/
def tagSendLoopAux (N : Nat) : Nat → TaggedState → TaggedState
  | 0, st => st
  | fuel + 1, st =>
    if 0 < st.credit ∧ st.sent < N then
      tagSendLoopAux N fuel { st with credit := st.credit - 1, sent := st.sent + 1 }
    else st

/-- `on_sendable` from send_lots.cpp on the tagged state. -/
def tag_on_sendable (N : Nat) (st : TaggedState) : TaggedState :=
  tagSendLoopAux N st.credit.toNat st

/-- `LoggingHandler::on_tracker_accept` (lines 75-97), invoked for the
disposition of the transfer with the given tag: the tag is recorded as
accepted, and the body's condition tests only
`sent == number_to_send && !closed` — the tracker identity plays no role
in whether the connection is closed. -/
def tag_on_tracker_accept (N : Nat) (tag : Nat) (st : TaggedState) :
    TaggedState :=
  let st1 := { st with accepted := st.accepted ++ [tag] }
  if st1.sent = N ∧ st1.closed = false then
    { st1 with
        closed := true,
        closeCalls := st1.closeCalls + 1,
        closedAfter := some st1.accepted }
  else st1

/-- One tagged event step of the send_lots.cpp handler. -/
def tagStep (N : Nat) (st : TaggedState) : TaggedEvent → TaggedState
  | .flow g => { st with credit := st.credit + g }
  | .sendable => tag_on_sendable N st
  | .accept tag => tag_on_tracker_accept N tag st

def tagRunFrom (N : Nat) (st : TaggedState) (es : List TaggedEvent) :
    TaggedState :=
  es.foldl (tagStep N) st

/-- The send_lots.cpp handler run on a tagged event trace. -/
def tagRun (N : Nat) (es : List TaggedEvent) : TaggedState :=
  tagRunFrom N tagInit es

lemma tagSendLoopAux_sent_le (N : Nat) (fuel : Nat) :
    ∀ st : TaggedState, st.sent ≤ N → (tagSendLoopAux N fuel st).sent ≤ N := by
  induction fuel with
  | zero => intro st h; simpa [tagSendLoopAux] using h
  | succ fuel ih =>
    intro st h
    rw [tagSendLoopAux]
    split
    · rename_i hguard
      exact ih _ (show st.sent + 1 ≤ N by omega)
    · exact h

lemma tagSendLoopAux_of_guard_false (N : Nat) (fuel : Nat) (st : TaggedState)
    (h : ¬(0 < st.credit ∧ st.sent < N)) : tagSendLoopAux N fuel st = st := by
  cases fuel with
  | zero => rfl
  | succ fuel => rw [tagSendLoopAux, if_neg h]

lemma tagSendLoopAux_complete (N : Nat) (fuel : Nat) :
    ∀ st : TaggedState, st.sent ≤ N → (N : Int) - st.sent ≤ st.credit →
      N - st.sent ≤ fuel → (tagSendLoopAux N fuel st).sent = N := by
  induction fuel with
  | zero =>
    intro st h1 _ h3
    simp only [tagSendLoopAux]
    omega
  | succ fuel ih =>
    intro st h1 h2 h3
    rw [tagSendLoopAux]
    split
    · rename_i hguard
      refine ih _ (show st.sent + 1 ≤ N by omega)
        (show (N : Int) - ((st.sent + 1 : Nat) : Int) ≤ st.credit - 1 by
          push_cast; omega)
        (show N - (st.sent + 1) ≤ fuel by omega)
    · rename_i hguard
      omega

lemma tagSendLoopAux_closed_closeCalls (N : Nat) (fuel : Nat) :
    ∀ st : TaggedState,
      (tagSendLoopAux N fuel st).closed = st.closed ∧
      (tagSendLoopAux N fuel st).closeCalls = st.closeCalls := by
  induction fuel with
  | zero => intro st; simp [tagSendLoopAux]
  | succ fuel ih =>
    intro st
    rw [tagSendLoopAux]
    split
    · exact ih _
    · exact ⟨rfl, rfl⟩

lemma tag_on_tracker_accept_sent (N : Nat) (tag : Nat) (st : TaggedState) :
    (tag_on_tracker_accept N tag st).sent = st.sent := by
  rw [tag_on_tracker_accept]
  split <;> rfl

lemma tagRunFrom_sent_stable (N : Nat) (es : List TaggedEvent) :
    ∀ st : TaggedState, st.sent = N → (tagRunFrom N st es).sent = N := by
  induction es with
  | nil => intro st h; exact h
  | cons e es ih =>
    intro st h
    cases e with
    | flow g => exact ih { st with credit := st.credit + g } h
    | sendable =>
      have hid : tag_on_sendable N st = st :=
        tagSendLoopAux_of_guard_false N st.credit.toNat st (by omega)
      have hstep : tagRunFrom N st (TaggedEvent.sendable :: es) =
          tagRunFrom N (tag_on_sendable N st) es := rfl
      rw [hstep, hid]
      exact ih st h
    | accept tag =>
      exact ih (tag_on_tracker_accept N tag st)
        (by rw [tag_on_tracker_accept_sent N tag st]; exact h)

lemma tagRunFrom_sent_le (N : Nat) (es : List TaggedEvent) :
    ∀ st : TaggedState, st.sent ≤ N → (tagRunFrom N st es).sent ≤ N := by
  induction es with
  | nil => intro st h; exact h
  | cons e es ih =>
    intro st h
    cases e with
    | flow g => exact ih { st with credit := st.credit + g } h
    | sendable =>
      exact ih (tag_on_sendable N st)
        (tagSendLoopAux_sent_le N st.credit.toNat st h)
    | accept tag =>
      exact ih (tag_on_tracker_accept N tag st)
        (by rw [tag_on_tracker_accept_sent N tag st]; exact h)

lemma tagStep_close_change (N : Nat) (st : TaggedState) (e : TaggedEvent)
    (h : (tagStep N st e).closeCalls ≠ st.closeCalls) :
    (∃ tag, e = TaggedEvent.accept tag) ∧ st.sent = N ∧ st.closed = false ∧
    (tagStep N st e).closed = true := by
  cases e with
  | flow g => exact absurd rfl h
  | sendable =>
    exact absurd (tagSendLoopAux_closed_closeCalls N st.credit.toNat st).2 h
  | accept tag =>
    have hstep : tagStep N st (TaggedEvent.accept tag) =
        tag_on_tracker_accept N tag st := rfl
    rw [hstep] at h ⊢
    rw [tag_on_tracker_accept] at h ⊢
    split at h
    · rename_i hguard
      rw [if_pos hguard]
      exact ⟨⟨tag, rfl⟩, hguard.1, hguard.2, rfl⟩
    · exact absurd rfl h

/-- C5 counterexample: the scenario of the claim itself — `number_to_send
= 10`, initial credit 10 granted, so `on_sendable` sends all 10 transfers
in one burst before any disposition arrives.  The first
`on_tracker_accept`, for the 1st transfer's disposition, then finds
`sent == 10 && !closed` and invokes `connection().close()`: at that moment
only tag 1 has been accepted, so the close happens before the 10th
transfer's disposition is accepted (the source's own comment notes that at
the point of close there are still unsettled messages). -/
theorem C5_close_before_tenth_disposition :
    (SendLots.tagRun 10 [SendLots.TaggedEvent.flow 10,
        SendLots.TaggedEvent.sendable, SendLots.TaggedEvent.accept 1]).sent
      = 10 ∧
    (SendLots.tagRun 10 [SendLots.TaggedEvent.flow 10,
        SendLots.TaggedEvent.sendable, SendLots.TaggedEvent.accept 1]
      ).closeCalls = 1 ∧
    (SendLots.tagRun 10 [SendLots.TaggedEvent.flow 10,
        SendLots.TaggedEvent.sendable, SendLots.TaggedEvent.accept 1]
      ).closedAfter = some [1] ∧
    (10 : Nat) ∉ [1] := by
  decide

/-- C5 amended: with `number_to_send = 10`, `sent` never exceeds 10 on any
tagged trace; a flow grant of at least 10 followed by one `on_sendable`
emits exactly 10 transfers which then stay at 10; `connection().close()`
is invoked only by an `on_tracker_accept` event — i.e. after some
transfer's disposition is accepted — in a state with all 10 transfers
already sent and the connection not yet closed, and never by an
`on_sendable` invocation (a send call returning); in the claim's own
sufficient-credit scenario, the close is triggered by the first accepted
disposition, with the later dispositions still outstanding. -/
theorem C5_close_on_accept_with_all_sent (rest : List TaggedEvent) (g : Nat)
    (hg : 10 ≤ g) :
    (∀ es : List TaggedEvent, (tagRun 10 es).sent ≤ 10) ∧
    (tagRun 10 (TaggedEvent.flow g :: TaggedEvent.sendable :: rest)).sent
      = 10 ∧
    (∀ st : TaggedState, ∀ e : TaggedEvent,
      (tagStep 10 st e).closeCalls ≠ st.closeCalls →
      (∃ tag, e = TaggedEvent.accept tag) ∧ st.sent = 10 ∧
      st.closed = false ∧ (tagStep 10 st e).closed = true) ∧
    (∀ st : TaggedState,
      (tagStep 10 st TaggedEvent.sendable).closeCalls = st.closeCalls) ∧
    (tagRun 10 [TaggedEvent.flow 10, TaggedEvent.sendable,
      TaggedEvent.accept 1]).closedAfter = some [1] := by
  refine ⟨fun es => tagRunFrom_sent_le 10 es tagInit (Nat.zero_le 10),
    ?_, ?_, ?_, by decide⟩
  · have hafter : (tagStep 10 tagInit (TaggedEvent.flow g)).credit
        = (g : Int) := by
      simp [tagStep, tagInit]
    have hsent : (tagStep 10 tagInit (TaggedEvent.flow g)).sent = 0 := rfl
    have hdone : (tag_on_sendable 10
        (tagStep 10 tagInit (TaggedEvent.flow g))).sent = 10 := by
      refine tagSendLoopAux_complete 10
        (tagStep 10 tagInit (TaggedEvent.flow g)).credit.toNat
        (tagStep 10 tagInit (TaggedEvent.flow g))
        (by omega) (by rw [hafter, hsent]; push_cast; omega) ?_
      rw [hafter, hsent]
      simp
      omega
    have hrun : tagRun 10 (TaggedEvent.flow g :: TaggedEvent.sendable :: rest)
        = tagRunFrom 10 (tag_on_sendable 10
            (tagStep 10 tagInit (TaggedEvent.flow g))) rest := rfl
    rw [hrun]
    exact tagRunFrom_sent_stable 10 rest _ hdone
  · intro st e h
    exact tagStep_close_change 10 st e h
  · intro st
    exact (tagSendLoopAux_closed_closeCalls 10 st.credit.toNat st).2

/-- Witness for C5's amended theorem at the concrete trace
`flow 10; sendable` and at a concrete accepting state with ten messages
sent. -/
theorem C5_close_on_accept_with_all_sent_witness :
    ((∀ es : List TaggedEvent, (tagRun 10 es).sent ≤ 10) ∧
      (tagRun 10 (TaggedEvent.flow 10 :: TaggedEvent.sendable :: [])).sent
        = 10 ∧
      (∀ st : TaggedState, ∀ e : TaggedEvent,
        (tagStep 10 st e).closeCalls ≠ st.closeCalls →
        (∃ tag, e = TaggedEvent.accept tag) ∧ st.sent = 10 ∧
        st.closed = false ∧ (tagStep 10 st e).closed = true) ∧
      (∀ st : TaggedState,
        (tagStep 10 st TaggedEvent.sendable).closeCalls = st.closeCalls) ∧
      (tagRun 10 [TaggedEvent.flow 10, TaggedEvent.sendable,
        TaggedEvent.accept 1]).closedAfter = some [1]) ∧
    ((∃ tag, TaggedEvent.accept 3 = TaggedEvent.accept tag) ∧
      (⟨0, 10, false, 0, [], none⟩ : TaggedState).sent = 10 ∧
      (⟨0, 10, false, 0, [], none⟩ : TaggedState).closed = false ∧
      (tagStep 10 ⟨0, 10, false, 0, [], none⟩
        (TaggedEvent.accept 3)).closed = true) :=
  ⟨C5_close_on_accept_with_all_sent [] 10 (by decide),
   (C5_close_on_accept_with_all_sent [] 10 (by decide)).2.2.1
     ⟨0, 10, false, 0, [], none⟩ (TaggedEvent.accept 3) (by decide)⟩

/-- C6: on every trace of flow grants, `on_sendable` invocations and
accepted dispositions, the send_lots.cpp handler's credit counter equals
the sum of all grants minus the transfers sent, never goes negative, and
`sent` never exceeds the planned count; `on_sendable` emits nothing when
the credit is not strictly positive or the planned count is reached (it is
the identity there); the send_lots_tls.cpp / send_lots_leaky.cpp handler,
whose loop guard tests credit nonzero, behaves identically; and the
send_receive_failover.cpp handler satisfies the same credit accounting on
traces whose `on_sendable` invocations occur with positive credit. -/
theorem C6_credit_equals_grants_minus_transfers (N : Nat) (es : List Event) :
    ((run N es).credit = (grants es : Int) - ((run N es).sent : Int) ∧
      0 ≤ (run N es).credit ∧ (run N es).sent ≤ N) ∧
    runTls N es = run N es ∧
    (∀ st : LinkState, ¬(0 < st.credit ∧ st.sent < N) → on_sendable N st = st) ∧
    (wfFailover init es = true →
      (runFailover es).credit =
        (grants es : Int) - ((runFailover es).sent : Int) ∧
      0 ≤ (runFailover es).credit) := by
  have h := run_inv N es
  refine ⟨⟨by omega, h.2.1, h.2.2⟩, ?_, ?_, ?_⟩
  · exact runTlsFrom_eq N es init (le_refl 0)
  · intro st hst
    exact sendLoopAux_of_guard_false N st.credit.toNat st hst
  · intro hwf
    have h2 := runFailover_inv es hwf
    exact ⟨by omega, h2.2⟩

/-- Witness for C6 at the concrete trace `flow 3; sendable` with planned
count 2: two transfers go out, one credit unit remains. -/
theorem C6_credit_equals_grants_minus_transfers_witness :
    (run 2 [Event.flow 3, Event.sendable]).credit =
      (grants [Event.flow 3, Event.sendable] : Int) -
        ((run 2 [Event.flow 3, Event.sendable]).sent : Int) ∧
    on_sendable 2 init = init ∧
    (runFailover [Event.flow 3, Event.sendable]).credit =
      (grants [Event.flow 3, Event.sendable] : Int) -
        ((runFailover [Event.flow 3, Event.sendable]).sent : Int) :=
  ⟨(C6_credit_equals_grants_minus_transfers 2 [Event.flow 3, Event.sendable]).1.1,
   (C6_credit_equals_grants_minus_transfers 2 [Event.flow 3, Event.sendable]).2.2.1
     init (by decide),
   ((C6_credit_equals_grants_minus_transfers 2 [Event.flow 3, Event.sendable]).2.2.2
     (by decide)).1⟩

/-- C10: on every event trace, `connection().close()` is invoked at most
once: the `closed` flag is true exactly when one close has been performed,
it is set in the very step that performs the close, and once `closed` is
true every further event leaves it true and performs no further close. -/
theorem C10_close_at_most_once (N : Nat) (es : List Event) :
    (run N es).closeCalls ≤ 1 ∧
    ((run N es).closed = true ↔ (run N es).closeCalls = 1) ∧
    (∀ st : LinkState, ∀ e : Event, st.closed = true →
      (step N st e).closed = true ∧ (step N st e).closeCalls = st.closeCalls) ∧
    (∀ st : LinkState, (on_tracker_accept N st).closeCalls ≠ st.closeCalls →
      (on_tracker_accept N st).closed = true ∧ st.closed = false) := by
  have h := runFrom_close_inv N es init (by simp [init]) (by simp [init])
  refine ⟨h.2, h.1, ?_, ?_⟩
  · intro st e hcl
    exact step_closed_stable N st e hcl
  · intro st hch
    have hc := step_close_change N st Event.accept hch
    exact ⟨hc.2.2.2.1, hc.2.2.1⟩

/-- Witness for C10 at a concrete closed state and a concrete accepting
state. -/
theorem C10_close_at_most_once_witness :
    ((run 1 []).closeCalls ≤ 1 ∧
      ((run 1 []).closed = true ↔ (run 1 []).closeCalls = 1)) ∧
    ((step 1 ⟨0, 1, true, 1⟩ Event.accept).closed = true ∧
      (step 1 ⟨0, 1, true, 1⟩ Event.accept).closeCalls =
        (⟨0, 1, true, 1⟩ : LinkState).closeCalls) ∧
    ((on_tracker_accept 1 ⟨0, 1, false, 0⟩).closed = true ∧
      (⟨0, 1, false, 0⟩ : LinkState).closed = false) :=
  ⟨⟨(C10_close_at_most_once 1 []).1, (C10_close_at_most_once 1 []).2.1⟩,
   (C10_close_at_most_once 1 []).2.2.1 ⟨0, 1, true, 1⟩ Event.accept rfl,
   (C10_close_at_most_once 1 []).2.2.2 ⟨0, 1, false, 0⟩ (by decide)⟩

end SendLots

namespace ReceiveAck

/-- A disposition issued by the application for one delivery. -/
inductive Disposition where
  | accept
  | reject
  deriving Repr, DecidableEq

/-- `MyHandler::on_message` in receive_client_ack.cpp (lines 62-85): try to
convert the incoming body to a string with `proton::get` and accept the
delivery; if the conversion throws, reject it.  The body argument is the
result of that conversion: the string on success or the exception text on
failure. -/
def clientAck_on_message (body : Except String String) : Disposition :=
  match body with
  | .ok _ => .accept
  | .error _ => .reject

/-- `handle_message` from container_per_thread.cpp (lines 53-57): logs the
message and returns 1 (OK) for every input. -/
def handle_message (_msg : String) : Int := 1

/-- `MyHandler::on_message` in container_per_thread.cpp (lines 89-101):
coerce the body to a string — with no try/catch around it, so a throwing
coercion propagates out of the callback and no disposition is issued —
then accept when `handle_message` returns nonzero and reject otherwise. -/
def perThread_on_message (body : Except String String) : Option Disposition :=
  match body with
  | .error _ => none
  | .ok m => if handle_message m ≠ 0 then some .accept else some .reject

/-- Receiver configuration in container_per_thread.cpp (line 85):
`ro.auto_accept (false)`. -/
def perThread_auto_accept : Bool := false

end ReceiveAck

/-- C7 counterexample: in container_per_thread.cpp, a delivery whose body
fails string coercion receives NO disposition — `on_message` has no
try/catch, the exception propagates — whereas the claim says a delivery
whose decoding throws is rejected. -/
theorem C7_throwing_coercion_issues_no_disposition :
    ReceiveAck.perThread_on_message (.error "conversion_error") = none ∧
    ReceiveAck.perThread_on_message (.error "conversion_error") ≠
      some ReceiveAck.Disposition.reject := by
  exact ⟨rfl, by decide⟩

/-- C7 amended: each `on_message` issues at most one disposition per
delivery; receive_client_ack.cpp accepts when the body decodes as a string
and rejects when the decoding throws; container_per_thread.cpp (the
receiver with `auto_accept` disabled) accepts when the coercion succeeds —
`handle_message` always reports success — rejects only when the handler
reports failure, and issues no disposition when the coercion throws. -/
theorem C7_explicit_ack_dispositions (m e : String) :
    ReceiveAck.clientAck_on_message (.ok m) = .accept ∧
    ReceiveAck.clientAck_on_message (.error e) = .reject ∧
    ReceiveAck.handle_message m = 1 ∧
    ReceiveAck.perThread_on_message (.ok m) = some .accept ∧
    ReceiveAck.perThread_on_message (.error e) = none ∧
    ReceiveAck.perThread_auto_accept = false := by
  refine ⟨rfl, rfl, rfl, ?_, rfl, rfl⟩
  simp [ReceiveAck.perThread_on_message, ReceiveAck.handle_message]

/-- Witness for C7's amended theorem at a concrete body and exception. -/
theorem C7_explicit_ack_dispositions_witness :
    ReceiveAck.clientAck_on_message (.ok "Hello, world") = .accept ∧
    ReceiveAck.clientAck_on_message (.error "conversion") = .reject ∧
    ReceiveAck.handle_message "Hello, world" = 1 ∧
    ReceiveAck.perThread_on_message (.ok "Hello, world") = some .accept ∧
    ReceiveAck.perThread_on_message (.error "conversion") = none ∧
    ReceiveAck.perThread_auto_accept = false :=
  C7_explicit_ack_dispositions "Hello, world" "conversion"

namespace SendReceiveFailover

/-- Modelled from the spec: failover endpoint selection — on failure to
connect, the core attempts the configured endpoints in order (primary
first, then the backup list) and succeeds at the first endpoint that is
up.  The selection logic lives in the Proton library, not in this
repository's sources. -/
def connectAttempt (up : String → Bool) : List String → Option String
  | [] => none
  | e :: rest => if up e then some e else connectAttempt up rest

/-- The endpoint list configured by `MyHandler::on_container_start` in
send_receive_failover.cpp (lines 100-116): the primary address passed to
`open_receiver`/`open_sender`, plus the backup passed via
`conn_options.failover_urls({backup})`. -/
def configuredEndpoints (address backup : String) : List String :=
  [address, backup]

/-- A connection as observed in `on_connection_open`: the host that
actually accepted the connection, and the value returned by
`c.virtual_host()` (which the source's own comment notes is always an
empty string in Proton 0.37.0). -/
structure Conn where
  acceptedHost : String
  virtualHost : String
  deriving Repr, DecidableEq

/-- `MyHandler::on_connection_open` in send_receive_failover.cpp
(lines 68-76): the host string it logs is `c.virtual_host()`. -/
def on_connection_open_reported (c : Conn) : String := c.virtualHost

end SendReceiveFailover

/-- C8 counterexample: after failing over to the backup
`127.0.0.1:5673`, `on_connection_open` reports `virtual_host()` — an empty
string per the source's own comment about Proton 0.37.0 — and not the host
that actually accepted the connection. -/
theorem C8_reports_virtual_host_not_accepting_host :
    SendReceiveFailover.on_connection_open_reported ⟨"127.0.0.1:5673", ""⟩ = "" ∧
    SendReceiveFailover.on_connection_open_reported ⟨"127.0.0.1:5673", ""⟩ ≠
      "127.0.0.1:5673" := by
  exact ⟨rfl, by decide⟩

/-- C8 amended: with the primary down and the backup up, `connect()`
succeeds by automatically falling over to the backup with no application
intervention; `on_connection_open` then reports the connection's
`virtual_host()`, not the host that actually accepted. -/
theorem C8_failover_to_backup (address backup : String) (up : String → Bool)
    (h1 : up address = false) (h2 : up backup = true) :
    SendReceiveFailover.connectAttempt up
      (SendReceiveFailover.configuredEndpoints address backup) = some backup ∧
    (∀ c : SendReceiveFailover.Conn,
      SendReceiveFailover.on_connection_open_reported c = c.virtualHost) := by
  constructor
  · simp [SendReceiveFailover.connectAttempt,
      SendReceiveFailover.configuredEndpoints, h1, h2]
  · intro c
    rfl

/-- Witness for C8's amended theorem with primary `127.0.0.1:5672/foo`
down and backup `127.0.0.1:5673` up. -/
theorem C8_failover_to_backup_witness :
    SendReceiveFailover.connectAttempt (fun e => e == "127.0.0.1:5673")
      (SendReceiveFailover.configuredEndpoints "127.0.0.1:5672/foo"
        "127.0.0.1:5673") = some "127.0.0.1:5673" ∧
    (∀ c : SendReceiveFailover.Conn,
      SendReceiveFailover.on_connection_open_reported c = c.virtualHost) :=
  C8_failover_to_backup "127.0.0.1:5672/foo" "127.0.0.1:5673"
    (fun e => e == "127.0.0.1:5673") (by decide) (by decide)

namespace Server

/-- An AMQP error condition with its description string. -/
structure ErrorCondition where
  description : String
  deriving Repr, DecidableEq

/-- The action the server handler takes when a remote peer attaches:
accept the attach, close just the link with an error, or close the whole
connection with an error. -/
inductive AttachResponse where
  | accepted
  | closeLink (e : ErrorCondition)
  | closeConnection (e : ErrorCondition)
  deriving Repr, DecidableEq

/-- `ReceiveHandler::on_receiver_open` in server.cpp (lines 82-93): if the
incoming link's target address is anything but "foo", call
`r.connection().close(error_condition("Invalid address"))` — the link- and
session-level closes are present only as comments marked "Fails" — and
otherwise leave the attach accepted. -/
def on_receiver_open (targetAddress : String) : AttachResponse :=
  if targetAddress ≠ "foo" then .closeConnection ⟨"Invalid address"⟩
  else .accepted

/-- Whether a response tears down the whole connection. -/
def fatalToConnection : AttachResponse → Bool
  | .closeConnection _ => true
  | _ => false

end Server

/-- C9 counterexample: for the target address "bar" the server closes the
entire connection with error condition "Invalid address" — a
connection-level close, fatal to the connection — not a link-level
error. -/
theorem C9_refusal_closes_whole_connection :
    Server.on_receiver_open "bar" =
      .closeConnection ⟨"Invalid address"⟩ ∧
    Server.fatalToConnection (Server.on_receiver_open "bar") = true ∧
    Server.on_receiver_open "bar" ≠ .closeLink ⟨"Invalid address"⟩ := by
  decide

/-- C9 amended: when a remote peer attaches to any target address other
than "foo", the server refuses by closing the whole connection with error
condition "Invalid address" — fatal to the connection — while an attach to
"foo" is accepted. -/
theorem C9_invalid_address_refusal (addr : String) (h : addr ≠ "foo") :
    Server.on_receiver_open addr =
      .closeConnection ⟨"Invalid address"⟩ ∧
    Server.fatalToConnection (Server.on_receiver_open addr) = true ∧
    Server.on_receiver_open "foo" = .accepted := by
  refine ⟨?_, ?_, by simp [Server.on_receiver_open]⟩ <;>
    simp [Server.on_receiver_open, Server.fatalToConnection, h]

/-- Witness for C9's amended theorem at the address "bar". -/
theorem C9_invalid_address_refusal_witness :
    Server.on_receiver_open "bar" =
      .closeConnection ⟨"Invalid address"⟩ ∧
    Server.fatalToConnection (Server.on_receiver_open "bar") = true ∧
    Server.on_receiver_open "foo" = .accepted :=
  C9_invalid_address_refusal "bar" (by decide)
